import Mathlib

/-!
Verification development for the name-registration pipeline
(`blockstack_client/backend/registrar.py`).  The Python source is shallowly
embedded below: pure fragments become Lean functions, the worker loop becomes
a fuel-indexed trace machine, and the external collaborators (chain client,
atlas peers, storage drivers, crypto primitives, async broadcasters) become
oracle parameters, as the specification treats them as opaque interfaces.
-/

namespace Registrar

/-! ## Durable queue model -/

/-- One row of the durable queue, after the data model of the spec
(category, fqu, tx hash, optional zonefile payload, zonefile hash,
token file, transfer address, last error annotation). -/
structure QueueEntry where
  category : String
  fqu : String
  tx_hash : String
  zonefile : Option String
  zonefile_hash : Option String
  token_file : Option String
  transfer_address : Option String
  last_error : Option String
deriving DecidableEq, Repr

/-- Modelled from the spec: the durable queue module (imported as
`.queue` by the source, not itself under `src/`) exposes
`Contains(category, fqu)`; a row is keyed by the pair (category, fqu). -/
def in_queue (cat fqu : String) (q : List QueueEntry) : Bool :=
  q.any (fun e => e.category == cat && e.fqu == fqu)

/-- Modelled from the spec: `RemoveAll(entries)` is an idempotent bulk
delete by primary key (category, fqu). -/
def queue_removeall (es : List QueueEntry) (q : List QueueEntry) : List QueueEntry :=
  q.filter (fun e => !(es.any (fun r => r.category == e.category && r.fqu == e.fqu)))

/-- Modelled from the spec: `AddErrorMessage(category, fqu, text)` annotates
the row with the given text (best-effort `last_error` update). -/
def queue_add_error_msg (cat fqu : String) (msg : Option String)
    (q : List QueueEntry) : List QueueEntry :=
  q.map (fun e =>
    if e.category == cat && e.fqu == fqu then { e with last_error := msg } else e)

/-- All rows of the queue with the given primary key. -/
def entriesFor (q : List QueueEntry) (cat fqu : String) : List QueueEntry :=
  q.filter (fun e => e.category == cat && e.fqu == fqu)

/-! ## Lockfile protocol (`is_lockfile_stale`, startup of `run`) -/

/-- The whitespace characters removed by Python `str.strip`. -/
def isPyWhitespace (c : Char) : Bool :=
  c = ' ' || c = '\t' || c = '\n' || c = '\r' || c = '\x0b' || c = '\x0c'

/-- Strip leading and trailing whitespace from a character list. -/
def stripWs (cs : List Char) : List Char :=
  ((cs.dropWhile isPyWhitespace).reverse.dropWhile isPyWhitespace).reverse

/-- Decimal integer parse after Python `int(dat.strip())`: strip
whitespace, then an optional sign followed by at least one digit. -/
def parseDecInt (s : String) : Option Int :=
  let t := stripWs s.data
  let core : Int × List Char :=
    match t with
    | '-' :: rest => (-1, rest)
    | '+' :: rest => (1, rest)
    | _ => (1, t)
  if !core.2.isEmpty && core.2.all Char.isDigit then
    some (core.1 * (core.2.foldl (fun a c => 10 * a + ((c.toNat : Int) - 48)) (0 : Int)))
  else
    none

/-- `RegistrarWorker.is_lockfile_stale`: read the lockfile contents, parse
the PID (a parse failure yields -1), and report stale when the parsed PID
differs from the current PID. -/
def is_lockfile_stale (contents : String) (curPid : Int) : Bool :=
  let pid := (parseDecInt contents).getD (-1)
  pid != curPid

/-- `RegistrarWorker.is_lockfile_valid`: the lockfile exists and is not
stale.  The filesystem is modelled by the optional lockfile contents. -/
def is_lockfile_valid (lockContents : Option String) (curPid : Int) : Bool :=
  match lockContents with
  | some s => !(is_lockfile_stale s curPid)
  | none => false

/-- Outcome of the lock-acquisition prologue of `RegistrarWorker.run`. -/
inductive StartOutcome where
  | exitValidLock
  | acquired
  | exitLinkFailed
  | exitWriteFailed
deriving DecidableEq, Repr

/-- The lock-acquisition prologue of `RegistrarWorker.run`: if the lockfile
is not valid, unlink it when it exists, then create a temp file, hard-link
it to the lock path, and write the PID; if the lockfile is valid, the extra
worker exits at once.  `linkOk` and `writeOk` model the outcomes of the
`os.link` and `lockfile_write` calls.  Returns the outcome together with
whether an existing lockfile was unlinked. -/
def lockfileStartup (lockContents : Option String) (curPid : Int)
    (linkOk writeOk : Bool) : StartOutcome × Bool :=
  if !(is_lockfile_valid lockContents curPid) then
    let removed := lockContents.isSome
    if linkOk then
      if writeOk then (StartOutcome.acquired, removed)
      else (StartOutcome.exitWriteFailed, removed)
    else (StartOutcome.exitLinkFailed, removed)
  else
    (StartOutcome.exitValidLock, false)

/-! ## Worker backoff arithmetic (`RegistrarWorker.run`, cycle body) -/

/-- One pipeline step of a cycle, as it affects the backoff state: every
step that reports an error sets `failed = True` and resets the poll
interval to 1.0; a clean step leaves both unchanged. -/
def stepUpdate (acc : ℚ × Bool) (stepErr : Bool) : ℚ × Bool :=
  if stepErr then ((1 : ℚ), true) else acc

/-- Folding the six pipeline steps of one cycle over the backoff state,
starting from the poll interval carried in and `failed = False`. -/
def runSteps (p : ℚ) (errs : List Bool) : ℚ × Bool :=
  errs.foldl stepUpdate (p, false)

/-- The end-of-cycle backoff update of `RegistrarWorker.run`: if any step
failed, `poll_interval = 2 * poll_interval + random.random() * poll_interval`;
otherwise the interval is reset to the configured poll interval. -/
def nextPollInterval (pf : ℚ × Bool) (cfg rand : ℚ) : ℚ :=
  if pf.2 then 2 * pf.1 + rand * pf.1 else cfg

/-- The sleep interval computed at the end of one cycle, as a function of
the interval carried into the cycle, the per-step error outcomes, the
configured poll interval, and the random draw. -/
def cycleSleepInterval (p : ℚ) (errs : List Bool) (cfg rand : ℚ) : ℚ :=
  nextPollInterval (runSteps p errs) cfg rand

/-! ## Wallet cache (`RegistrarState`, `set_wallet`, `get_wallet`) -/

/-- The mutable wallet fields of `RegistrarState`.  Private key info values
are kept as opaque strings; their classification (singlesig or multisig)
is performed by the external `virtualchain` predicates, modelled as
oracles. -/
structure RegState where
  payment_address : Option String
  owner_address : Option String
  data_pubkey : Option String
  payment_privkey_info : Option String
  owner_privkey_info : Option String
  data_privkey_info : Option String
deriving DecidableEq, Repr

/-- The freshly constructed `RegistrarState`: all wallet fields unset. -/
def RegState.initial : RegState :=
  ⟨none, none, none, none, none, none⟩

/-- The external cryptographic and key-format primitives consumed by
`set_wallet`, treated as pure functions per the spec: the `virtualchain`
key classifiers, the `keylib` public-key derivation, format detection and
decompression. -/
structure CryptoOracle where
  isSinglesig : String → Bool
  isMultisig : String → Bool
  isSinglesigHex : String → Bool
  derivePub : String → String
  pubkeyFormat : String → String
  decompress : String → String

/-- Result envelope of `set_wallet`. -/
structure SetWalletResult where
  success : Bool
  error : Option String
deriving DecidableEq, Repr

/-- `set_wallet(payment_keypair, owner_keypair, data_keypair)`: assert all
six components non-empty, validate payment and owner key info as singlesig
or multisig and the data key as singlesig hex, then store the addresses,
the key info, and the data public key derived from the data private key,
decompressing it when the derived form is compressed hex. -/
def set_wallet (o : CryptoOracle) (st : RegState)
    (payment owner dat : String × String) : RegState × SetWalletResult :=
  if payment.1 = "" || payment.2 = "" || owner.1 = "" || owner.2 = "" ||
      dat.1 = "" || dat.2 = "" then
    (st, ⟨false, some "Missing wallet information"⟩)
  else if !(o.isSinglesig payment.2) && !(o.isMultisig payment.2) then
    (st, ⟨false, some "Invalid payment key info"⟩)
  else if !(o.isSinglesig owner.2) && !(o.isMultisig owner.2) then
    (st, ⟨false, some "Invalid owner key info"⟩)
  else if !(o.isSinglesigHex dat.2) then
    (st, ⟨false, some "Invalid data key info"⟩)
  else
    let pk0 := o.derivePub dat.2
    let pk := if o.pubkeyFormat pk0 = "hex_compressed" then o.decompress pk0 else pk0
    ({ payment_address := some payment.1
       owner_address := some owner.1
       data_pubkey := some pk
       payment_privkey_info := some payment.2
       owner_privkey_info := some owner.2
       data_privkey_info := some dat.2 }, ⟨true, none⟩)

/-- The wallet view returned by `get_wallet`. -/
structure WalletData where
  payment_address : Option String
  owner_address : Option String
  data_pubkey : Option String
  payment_privkey : Option String
  owner_privkey : Option String
  data_privkey : Option String
  error : Option String
deriving DecidableEq, Repr

/-- `get_wallet`: copy out the addresses, data pubkey and private keys;
when any private key is unset, attach the load-failure error. -/
def get_wallet (st : RegState) : WalletData :=
  let err :=
    if st.payment_privkey_info.isNone || st.owner_privkey_info.isNone ||
        st.data_privkey_info.isNone then
      some "Failed to load private keys (wrong password?)"
    else
      none
  { payment_address := st.payment_address
    owner_address := st.owner_address
    data_pubkey := st.data_pubkey
    payment_privkey := st.payment_privkey_info
    owner_privkey := st.owner_privkey_info
    data_privkey := st.data_privkey_info
    error := err }

/-! ## Operation issuers (`preorder`, `update`) -/

/-- Result envelope shared by the issuers. -/
structure IssuerResult where
  success : Bool
  error : Option String
  warning : Option String
  transaction_hash : Option String
  value_hash : Option String
deriving DecidableEq, Repr

/-- `preorder(fqu, ...)`: refuse when the wallet is locked; refuse with
`Already in queue.` when a preorder row for the name is queued; otherwise
call `async_preorder` (modelled by the oracle), which broadcasts the
preorder and, on success, enqueues the preorder row.  Returns the result,
the updated queue, and the number of chain broadcasts performed. -/
def preorder_issuer (st : RegState) (q : List QueueEntry) (fqu : String)
    (zonefile_data token_file transfer_address : Option String)
    (asyncPreorder : String → Except String String) :
    IssuerResult × List QueueEntry × Nat :=
  if st.payment_address.isNone || st.owner_address.isNone then
    (⟨false, some "Wallet is not unlocked.", none, none, none⟩, q, 0)
  else if in_queue "preorder" fqu q then
    (⟨false, some "Already in queue.", none, none, none⟩, q, 0)
  else
    match asyncPreorder fqu with
    | Except.ok tx =>
        let row : QueueEntry :=
          ⟨"preorder", fqu, tx, zonefile_data, none, token_file, transfer_address, none⟩
        (⟨true, none, none, some tx, none⟩, q ++ [row], 1)
    | Except.error e =>
        (⟨false, some e, none, none, none⟩, q, 1)

/-- `update(fqu, zonefile_txt, token_file, zonefile_hash, transfer_address)`:
assert that a zonefile or a zonefile hash is given (an exception
otherwise), derive the hash from the text when absent, refuse when the
wallet is locked or an update row is already queued, and, when the
on-chain hash already equals the new hash, return success with the
unchanged warning and no broadcast; otherwise call `async_update`
(broadcast plus enqueue of the update row).  Returns the result, the
updated queue, and the number of chain broadcasts performed; a Python
exception is the `Except.error` case. -/
def update_issuer (st : RegState) (q : List QueueEntry) (fqu : String)
    (zonefile_txt token_file zonefile_hash transfer_address : Option String)
    (getZonefileDataHash : String → String)
    (isZonefileHashCurrent : String → String → Bool)
    (asyncUpdate : String → String → Except String String) :
    Except String (IssuerResult × List QueueEntry × Nat) :=
  if zonefile_txt.isNone && zonefile_hash.isNone then
    Except.error "need zonefile or zonefile hash"
  else
    let zh := zonefile_hash.getD (getZonefileDataHash (zonefile_txt.getD ""))
    if st.payment_address.isNone || st.owner_address.isNone then
      Except.ok (⟨false, some "Wallet is not unlocked.", none, none, none⟩, q, 0)
    else if in_queue "update" fqu q then
      Except.ok (⟨false, some "Already in queue.", none, none, none⟩, q, 0)
    else if !(isZonefileHashCurrent fqu zh) then
      match asyncUpdate fqu zh with
      | Except.ok tx =>
          let row : QueueEntry :=
            ⟨"update", fqu, tx, zonefile_txt, some zh, token_file, transfer_address, none⟩
          Except.ok (⟨true, none, none, some tx, some zh⟩, q ++ [row], 1)
      | Except.error e =>
          Except.ok (⟨false, some e, none, none, none⟩, q, 1)
    else
      Except.ok
        (⟨true, none, some "The zonefile has not changed, so no update sent.", none, none⟩,
          q, 0)

/-! ## Replicator (`RegistrarWorker.replicate_name_data`) -/

/-- A name record as returned by `get_name_blockchain_record`: either an
error dictionary, or a record carrying the owner address (when present)
and the committed `value_hash`. -/
structure NameRecord where
  error : Option String
  address : Option String
  value_hash : String
deriving DecidableEq, Repr

/-- Side effects performed by the replicator: a blockchain lookup, a
zonefile push to the atlas peers, or a token-file put to the storage
drivers. -/
inductive Effect where
  | chainLookup (fqu : String)
  | atlasPush (fqu zonefile : String)
  | tokenPut (fqu tokenFileHash : String)
deriving DecidableEq, Repr

/-- The external calls consumed by `replicate_name_data`: the chain
record lookup, the atlas zonefile push, the zone-file parser combined
with the user-zonefile check, the signing key derived from the wallet
owner key, the hex sha256, the zonefile data hash, and the storage
token-file put. -/
structure ReplicationEnv where
  getNameRecord : String → NameRecord
  zonefileReplicateOk : String → String → Bool
  parsesAsUserZonefile : String → Bool
  signingKey : Option String
  sha256hex : String → String
  getZonefileDataHash : String → String
  tokenFilePutOk : String → String → Bool

/-- Outcome of one `replicate_name_data` call: the returned dictionary
(`ok` for status True, `error` otherwise), the effects performed, and the
updated in-memory dedupe accumulators `replicated_zonefiles` and
`replicated_token_file_hashes`. -/
structure ReplicateResult where
  res : Except String Unit
  effects : List Effect
  zfSeen : List String
  tfSeen : List String
deriving Repr

/-- The token-file half of `replicate_name_data`: when a token file is
present and the zonefile parses as a user zonefile, derive the signing
key (an assertion failure when the wallet yields none), hash
fqu plus zonefile hash plus token file, skip when already replicated, and
otherwise attempt the storage put, recording the hash on success. -/
def replicateTokenFile (env : ReplicationEnv) (nd : QueueEntry)
    (zonefile_data zonefile_hash : String)
    (effects : List Effect) (zfSeen tfSeen : List String) : ReplicateResult :=
  match nd.token_file with
  | none => ⟨Except.ok (), effects, zfSeen, tfSeen⟩
  | some tf =>
    if !(env.parsesAsUserZonefile zonefile_data) then
      ⟨Except.ok (), effects, zfSeen, tfSeen⟩
    else
      match env.signingKey with
      | none => ⟨Except.error "assertion failed: signing_privkey", effects, zfSeen, tfSeen⟩
      | some _ =>
        let tfh := env.sha256hex (nd.fqu ++ zonefile_hash ++ tf)
        if tfSeen.contains tfh then
          ⟨Except.ok (), effects, zfSeen, tfSeen⟩
        else if env.tokenFilePutOk nd.fqu tf then
          ⟨Except.ok (), effects ++ [Effect.tokenPut nd.fqu tfh], zfSeen, tfSeen ++ [tfh]⟩
        else
          ⟨Except.error "Failed to replicate token file",
            effects ++ [Effect.tokenPut nd.fqu tfh], zfSeen, tfSeen⟩

/-- `RegistrarWorker.replicate_name_data`: a missing zonefile is a
pure-deletion update, returned as success with no effects.  Otherwise the
zonefile hash is taken from the entry or computed; when the hash is not in
the dedupe accumulator the blockchain record is consulted (its error is
propagated; a `value_hash` mismatch yields the not-yet-replicated error),
the zonefile is pushed to the atlas peers, and the hash is recorded.  The
token-file half then runs. -/
def replicate_name_data (env : ReplicationEnv) (nd : QueueEntry)
    (zfSeen tfSeen : List String) : ReplicateResult :=
  match nd.zonefile with
  | none => ⟨Except.ok (), [], zfSeen, tfSeen⟩
  | some zonefile_data =>
    let zonefile_hash := nd.zonefile_hash.getD (env.getZonefileDataHash zonefile_data)
    if !(zfSeen.contains zonefile_hash) then
      let nr := env.getNameRecord nd.fqu
      match nr.error with
      | some e => ⟨Except.error e, [Effect.chainLookup nd.fqu], zfSeen, tfSeen⟩
      | none =>
        if nr.value_hash != zonefile_hash then
          ⟨Except.error "Zonefile hash not yet replicated",
            [Effect.chainLookup nd.fqu], zfSeen, tfSeen⟩
        else if !(env.zonefileReplicateOk nd.fqu zonefile_data) then
          ⟨Except.error "Failed to replicate zonefile",
            [Effect.chainLookup nd.fqu, Effect.atlasPush nd.fqu zonefile_data],
            zfSeen, tfSeen⟩
        else
          replicateTokenFile env nd zonefile_data zonefile_hash
            [Effect.chainLookup nd.fqu, Effect.atlasPush nd.fqu zonefile_data]
            (zfSeen ++ [zonefile_hash]) tfSeen
    else
      replicateTokenFile env nd zonefile_data zonefile_hash [] zfSeen tfSeen

/-! ## Transfer step (`RegistrarWorker.transfer_names`) -/

/-- Result of one call to the `transfer` issuer as seen by the worker:
its success flag and optional error message. -/
structure TransferRes where
  success : Bool
  error : Option String
deriving DecidableEq, Repr

/-- Accumulator of the `transfer_names` loop: the queue, the list of
failed names, and whether any transfer failed. -/
structure TransferAcc where
  queue : List QueueEntry
  failedNames : List String
  hadError : Bool
deriving DecidableEq, Repr

/-- One iteration of the `transfer_names` loop over a confirmed update
row: skip names in the skip list; with a transfer address, drop the row
when the chain already shows the name at that address, otherwise broadcast
a transfer, dropping the row on success and annotating and keeping it on
failure; with no transfer address, drop the row. -/
def transferStep (chain : String → NameRecord) (transferFn : String → String → TransferRes)
    (skip : List String) (acc : TransferAcc) (u : QueueEntry) : TransferAcc :=
  if skip.contains u.fqu then
    acc
  else
    match u.transfer_address with
    | some addr =>
      if (chain u.fqu).address == some addr then
        { acc with queue := queue_removeall [u] acc.queue }
      else
        let r := transferFn u.fqu addr
        if r.success then
          { acc with queue := queue_removeall [u] acc.queue }
        else
          { queue := queue_add_error_msg "update" u.fqu r.error acc.queue
            failedNames := acc.failedNames ++ [u.fqu]
            hadError := true }
    | none =>
      { acc with queue := queue_removeall [u] acc.queue }

/-- `RegistrarWorker.transfer_names`: fold the per-row step over the
confirmed update rows. -/
def transfer_names (chain : String → NameRecord)
    (transferFn : String → String → TransferRes) (skip : List String)
    (updates : List QueueEntry) (q : List QueueEntry) : TransferAcc :=
  updates.foldl (transferStep chain transferFn skip) ⟨q, [], false⟩

/-! ## Register step (`register_preordered_name`, `register_preorders`) -/

/-- Outcome of `RegistrarWorker.register_preordered_name`.  The
`nameError` case is the branch that evaluates `queuedb_find`, a name that
is neither imported nor defined in the module, so reaching it raises a
Python `NameError`. -/
inductive RpOutcome where
  | sent (tx : String)
  | failedBroadcast (e : String)
  | notPreordered
  | alreadyRegistered
  | nameError
deriving DecidableEq, Repr

/-- The register row enqueued by `async_register`, carrying the name data
forward from the preorder entry. -/
def registerRow (nd : QueueEntry) (tx : String) : QueueEntry :=
  ⟨"register", nd.fqu, tx, nd.zonefile, nd.zonefile_hash, nd.token_file,
    nd.transfer_address, none⟩

/-- `RegistrarWorker.register_preordered_name`: when the name is not yet
registered on-chain, and a preorder row is queued, and no register row is
queued, broadcast the register via `async_register` (modelled from the
spec: the call broadcasts and on success enqueues the register row);
when a register row is already queued the code evaluates the undefined
`queuedb_find`, modelled as `nameError`. -/
def register_preordered_name (isRegistered : Bool)
    (asyncRegister : String → Except String String)
    (q : List QueueEntry) (nd : QueueEntry) : RpOutcome × List QueueEntry :=
  if !isRegistered then
    if in_queue "preorder" nd.fqu q then
      if !(in_queue "register" nd.fqu q) then
        match asyncRegister nd.fqu with
        | Except.ok tx => (RpOutcome.sent tx, q ++ [registerRow nd tx])
        | Except.error e => (RpOutcome.failedBroadcast e, q)
      else
        (RpOutcome.nameError, q)
    else
      (RpOutcome.notPreordered, q)
  else
    (RpOutcome.alreadyRegistered, q)

/-- Accumulator of the worker step loops: the queue, whether the step
will report an error dictionary, and whether an unhandled `NameError`
escaped (aborting the loop). -/
structure PipeAcc where
  queue : List QueueEntry
  hadError : Bool
  raisedNameError : Bool
deriving DecidableEq, Repr

/-- One iteration of the `register_preorders` loop: drop the preorder
when a register row already exists for the name, otherwise dispatch
`register_preordered_name`, dropping the preorder on success or on
`already_registered`, recording an error dictionary on other failures,
and aborting on an escaped `NameError`. -/
def registerPreorderStep (isRegistered : String → Bool)
    (asyncRegister : String → Except String String)
    (acc : PipeAcc) (nd : QueueEntry) : PipeAcc :=
  if acc.raisedNameError then
    acc
  else if in_queue "register" nd.fqu acc.queue then
    { acc with queue := queue_removeall [nd] acc.queue }
  else
    match register_preordered_name (isRegistered nd.fqu) asyncRegister acc.queue nd with
    | (RpOutcome.sent _, q2) => { acc with queue := queue_removeall [nd] q2 }
    | (RpOutcome.alreadyRegistered, q2) => { acc with queue := queue_removeall [nd] q2 }
    | (RpOutcome.notPreordered, q2) => { acc with queue := q2, hadError := true }
    | (RpOutcome.failedBroadcast _, q2) => { acc with queue := q2, hadError := true }
    | (RpOutcome.nameError, q2) => { acc with queue := q2, raisedNameError := true }

/-- `RegistrarWorker.register_preorders`: fold the per-row step over the
confirmed preorder rows. -/
def register_preorders (isRegistered : String → Bool)
    (asyncRegister : String → Except String String)
    (preorders : List QueueEntry) (q : List QueueEntry) : PipeAcc :=
  preorders.foldl (registerPreorderStep isRegistered asyncRegister) ⟨q, false, false⟩

/-! ## Zonefile step (`set_zonefile`, `set_zonefiles`) -/

/-- Outcome of `RegistrarWorker.set_zonefile`: success with transaction
hash and zonefile hash, an error dictionary, the `NameError` raised when
the already-queued branch evaluates the undefined `queuedb_find`, or
another raised exception. -/
inductive SzOutcome where
  | ok (tx zfh : Option String)
  | err (e : String)
  | nameError
  | exn (e : String)
deriving DecidableEq, Repr

/-- `RegistrarWorker.set_zonefile`: when an update row is already queued
the code evaluates the undefined `queuedb_find` (`nameError`); otherwise
it dispatches the `update` issuer, propagating its assertion as an
exception, translating failure into an error dictionary, and asserting
that a successful result carries a transaction hash and value hash. -/
def set_zonefile (st : RegState)
    (getZonefileDataHash : String → String)
    (isZonefileHashCurrent : String → String → Bool)
    (asyncUpdate : String → String → Except String String)
    (q : List QueueEntry) (nd : QueueEntry) : SzOutcome × List QueueEntry :=
  if in_queue "update" nd.fqu q then
    (SzOutcome.nameError, q)
  else
    match update_issuer st q nd.fqu nd.zonefile nd.token_file nd.zonefile_hash
        nd.transfer_address getZonefileDataHash isZonefileHashCurrent asyncUpdate with
    | Except.error e => (SzOutcome.exn e, q)
    | Except.ok (r, q2, _) =>
      if !r.success then
        (SzOutcome.err (r.error.getD ""), q2)
      else if r.transaction_hash.isNone || r.value_hash.isNone then
        (SzOutcome.exn "Invalid response", q2)
      else
        (SzOutcome.ok r.transaction_hash r.value_hash, q2)

/-- One iteration of the `set_zonefiles` loop: drop the register when an
update row already exists for the name, otherwise dispatch `set_zonefile`,
dropping the register on success, recording an error dictionary on
failure, and aborting on an escaped `NameError` or exception.  The
`raisedNameError` field tracks only the `NameError`. -/
def setZonefileStep (st : RegState)
    (getZonefileDataHash : String → String)
    (isZonefileHashCurrent : String → String → Bool)
    (asyncUpdate : String → String → Except String String)
    (acc : PipeAcc × Bool) (nd : QueueEntry) : PipeAcc × Bool :=
  if acc.1.raisedNameError || acc.2 then
    acc
  else if in_queue "update" nd.fqu acc.1.queue then
    ({ acc.1 with queue := queue_removeall [nd] acc.1.queue }, acc.2)
  else
    match set_zonefile st getZonefileDataHash isZonefileHashCurrent asyncUpdate
        acc.1.queue nd with
    | (SzOutcome.ok _ _, q2) => ({ acc.1 with queue := queue_removeall [nd] q2 }, acc.2)
    | (SzOutcome.err _, q2) => ({ acc.1 with queue := q2, hadError := true }, acc.2)
    | (SzOutcome.nameError, q2) => ({ acc.1 with queue := q2, raisedNameError := true }, acc.2)
    | (SzOutcome.exn _, q2) => ({ acc.1 with queue := q2 }, true)

/-- `RegistrarWorker.set_zonefiles`: fold the per-row step over the
confirmed register rows; the Boolean component records an escaped
non-`NameError` exception. -/
def set_zonefiles (st : RegState)
    (getZonefileDataHash : String → String)
    (isZonefileHashCurrent : String → String → Bool)
    (asyncUpdate : String → String → Except String String)
    (registers : List QueueEntry) (q : List QueueEntry) : PipeAcc × Bool :=
  registers.foldl (setZonefileStep st getZonefileDataHash isZonefileHashCurrent asyncUpdate)
    (⟨q, false, false⟩, false)

/-! ## Worker loop trace machine (`RegistrarWorker.run`) -/

/-- Primitive observable actions of the worker loop: a read of the
`running` flag, a wallet fetch (with its readiness), the execution of one
pipeline step of a cycle, and a one-second pause of the inter-cycle
sleep.  Each action occupies one instant of the trace clock. -/
inductive WEv where
  | flagRead (b : Bool)
  | walletRead (ready : Bool)
  | stepRun (cycle : Nat) (i : Fin 6)
  | sleepSec
deriving DecidableEq, Repr

/-- Environment of the worker loop: the `running` flag as a function of
the trace clock (cleared asynchronously by `Shutdown`), the wallet
readiness per wallet fetch, the per-cycle per-step error outcomes, the
per-cycle random draw, and the configured poll interval. -/
structure WEnv where
  flag : Nat → Bool
  ready : Nat → Bool
  stepErr : Nat → Fin 6 → Bool
  rand : Nat → ℚ
  cfgPoll : ℚ

/-- The inter-cycle sleep of `RegistrarWorker.run`: `int(poll_interval)`
iterations of a one-second pause each followed by a read of the flag,
breaking out as soon as the flag reads false.  Returns the events and the
clock after the sleep. -/
def sleepLoop (env : WEnv) (t : Nat) : Nat → List WEv × Nat
  | 0 => ([], t)
  | s + 1 =>
    let b := env.flag (t + 1)
    if b then
      let rest := sleepLoop env (t + 2) s
      (WEv.sleepSec :: WEv.flagRead b :: rest.1, rest.2)
    else
      ([WEv.sleepSec, WEv.flagRead b], t + 2)

/-- The wallet gate of `RegistrarWorker.run`: while the last wallet fetch
is not ready and the flag (read as part of the loop condition) is set,
fetch the wallet again and sleep one second.  Returns the events, the
clock and wallet-fetch counter after the gate, and whether the gate
exited (false when the fuel ran out with the wallet still not ready). -/
def gateLoop (env : WEnv) (t w : Nat) (lastReady : Bool) :
    Nat → List WEv × Nat × Nat × Bool
  | 0 => if lastReady then ([], t, w, true) else ([], t, w, false)
  | g + 1 =>
    if lastReady then
      ([], t, w, true)
    else
      let b := env.flag t
      if !b then
        ([WEv.flagRead b], t + 1, w, true)
      else
        let r := env.ready w
        let rest := gateLoop env (t + 3) (w + 1) r g
        (WEv.flagRead b :: WEv.walletRead r :: WEv.sleepSec :: rest.1,
          rest.2.1, rest.2.2.1, rest.2.2.2)

/-- The six pipeline step events of one cycle; the steps run back to back
with no intervening read of the flag, exactly as in the source. -/
def stepEvents (c : Nat) : List WEv :=
  (List.finRange 6).map (WEv.stepRun c)

/-- The per-step error outcomes of one cycle, in step order. -/
def cycleErrs (env : WEnv) (c : Nat) : List Bool :=
  (List.finRange 6).map (env.stepErr c)

/-- The main loop of `RegistrarWorker.run` as a trace machine: read the
flag at the top of the cycle (the `while` condition), fetch the wallet,
run the wallet gate, read the flag at the preemption point, run the six
pipeline steps, compute the next poll interval by the backoff rule, sleep
with per-second flag checks, and recurse.  The fuel bounds the number of
cycles; gate-fuel exhaustion truncates the trace. -/
def workerRun (env : WEnv) (t w c : Nat) (p : ℚ) (g : Nat) : Nat → List WEv
  | 0 => []
  | n + 1 =>
    let b0 := env.flag t
    if !b0 then
      [WEv.flagRead b0]
    else
      let rdy := env.ready w
      let gres := gateLoop env (t + 2) (w + 1) rdy g
      let pre := WEv.flagRead b0 :: WEv.walletRead rdy :: gres.1
      if !gres.2.2.2 then
        pre
      else
        let t2 := gres.2.1
        let w2 := gres.2.2.1
        let bp := env.flag t2
        if !bp then
          pre ++ [WEv.flagRead bp]
        else
          let pf := runSteps p (cycleErrs env c)
          let p2 := nextPollInterval pf env.cfgPoll (env.rand c)
          let sres := sleepLoop env (t2 + 1 + 6) (⌊p2⌋.toNat)
          pre ++ (WEv.flagRead bp :: stepEvents c) ++ sres.1 ++
            workerRun env sres.2 w2 (c + 1) p2 g n

/-! ## Concrete instances used by counterexamples and witnesses -/

/-- A wallet state with all fields set, as left by a successful
`set_wallet`. -/
def sampleWallet : RegState :=
  ⟨some "1PaymentAddr", some "1OwnerAddr", some "04pubkey",
    some "paykey", some "ownkey", some "datakey"⟩

/-- A queued update row for the transfer-step instances. -/
def c2row : QueueEntry :=
  ⟨"update", "alice.id", "txA", some "zfA", some "hA", none, some "1Dest", none⟩

/-- A chain view that does not yet show the requested transfer. -/
def c2chain : String → NameRecord :=
  fun _ => ⟨none, some "1OwnerAddr", "hA"⟩

/-- A transfer issuer whose broadcast fails with a message. -/
def c2transferFn : String → String → TransferRes :=
  fun _ _ => ⟨false, some "tx broadcast failed"⟩

/-- Replication environment for the dedupe-set retry scenario: the chain
record carries value hash h2 while the entry carries h1. -/
def c3Env : ReplicationEnv :=
  { getNameRecord := fun _ => ⟨none, none, "h2"⟩
    zonefileReplicateOk := fun _ _ => true
    parsesAsUserZonefile := fun _ => true
    signingKey := some "sigkey"
    sha256hex := fun _ => "tfhash"
    getZonefileDataHash := fun _ => "h1"
    tokenFilePutOk := fun _ _ => true }

/-- An update entry with zonefile data, hash h1 and a token file. -/
def c3Entry : QueueEntry :=
  ⟨"update", "bob.id", "txB", some "zonefiledata", some "h1", some "tokenfile", none, none⟩

/-- Replication environment for the first-processing gate: the chain
still shows value hash h0. -/
def c3wEnv : ReplicationEnv :=
  { getNameRecord := fun _ => ⟨none, none, "h0"⟩
    zonefileReplicateOk := fun _ _ => true
    parsesAsUserZonefile := fun _ => true
    signingKey := some "sigkey"
    sha256hex := fun _ => "tfhash"
    getZonefileDataHash := fun _ => "h1"
    tokenFilePutOk := fun _ _ => true }

/-- Worker environment whose flag is cleared at instant 3, just after the
preemption-point read of the first cycle. -/
def c5Env : WEnv :=
  { flag := fun t => decide (t < 3)
    ready := fun _ => true
    stepErr := fun _ _ => false
    rand := fun _ => 0
    cfgPoll := 1 }

/-- Worker environment whose flag is always clear. -/
def c5ClearEnv : WEnv :=
  { flag := fun _ => false
    ready := fun _ => true
    stepErr := fun _ _ => false
    rand := fun _ => 0
    cfgPoll := 1 }

/-- Worker environment whose flag is always set. -/
def c5SetEnv : WEnv :=
  { flag := fun _ => true
    ready := fun _ => true
    stepErr := fun _ _ => false
    rand := fun _ => 0
    cfgPoll := 1 }

/-- Replication environment for the pure-deletion instance. -/
def c6Env : ReplicationEnv :=
  { getNameRecord := fun _ => ⟨none, none, "h1"⟩
    zonefileReplicateOk := fun _ _ => true
    parsesAsUserZonefile := fun _ => true
    signingKey := some "sigkey"
    sha256hex := fun _ => "tfhash"
    getZonefileDataHash := fun _ => "h1"
    tokenFilePutOk := fun _ _ => true }

/-- An update entry with no zonefile data (a pure-deletion update). -/
def c6Entry : QueueEntry :=
  ⟨"update", "carol.id", "txC", none, none, some "tokenfile", none, none⟩

/-- A queue holding one preorder row for the duplicate-preorder instance. -/
def c7Queue : List QueueEntry :=
  [⟨"preorder", "bob.id", "txP", some "zfB", none, none, none, none⟩]

/-- Crypto oracle for the wallet round-trip instance: the derived public
key is compressed hex and decompresses to uncompressed hex. -/
def c9Oracle : CryptoOracle :=
  { isSinglesig := fun _ => true
    isMultisig := fun _ => false
    isSinglesigHex := fun _ => true
    derivePub := fun _ => "02aabb"
    pubkeyFormat := fun s => if s = "02aabb" then "hex_compressed" else "hex"
    decompress := fun _ => "04aabbcc" }

/-! ## Theorems -/

/-- Once a step has failed, the remaining steps of the cycle leave the
backoff state at interval 1 with the failed mark set. -/
theorem foldl_stepUpdate_failed (es : List Bool) :
    es.foldl stepUpdate ((1 : ℚ), true) = ((1 : ℚ), true) := by
  induction es with
  | nil => rfl
  | cons e es ih =>
    cases e <;> simpa [stepUpdate] using ih

/-- The backoff state after the six steps: interval 1 and failed when any
step erred, otherwise the carried interval and not failed. -/
theorem runSteps_eq (p : ℚ) (errs : List Bool) :
    runSteps p errs = if errs.any id then ((1 : ℚ), true) else (p, false) := by
  induction errs generalizing p with
  | nil => rfl
  | cons e es ih =>
    cases e with
    | false =>
      simpa [runSteps, stepUpdate, List.any_cons] using ih p
    | true =>
      simp [runSteps, stepUpdate, List.any_cons, foldl_stepUpdate_failed]

/-- C1, counterexample.  With the previous sleep interval at 10, a failed
step and a zero random draw, the code sleeps 2, not the
2 * prev + rand * prev = 20 the claim predicts: every failing step resets
the interval to 1.0 before the backoff formula is applied. -/
theorem C1_backoff_counterexample :
    cycleSleepInterval 10 [true, false, false, false, false, false] 60 0 = 2 ∧
    (2 : ℚ) ≠ 2 * 10 + 0 * 10 := by
  constructor
  · show nextPollInterval (runSteps 10 [true, false, false, false, false, false]) 60 0 = 2
    rw [runSteps_eq]
    norm_num [nextPollInterval]
  · norm_num

/-- C1, amended.  If any step of a cycle marked failed, the sleep before
the next cycle equals 2 * 1 + rand * 1 = 2 + rand, independent of the
interval carried into the cycle, because every failing step resets the
poll interval to 1.0 before the end-of-cycle backoff formula; after a
cycle with no failed step the sleep is reset to the configured poll
interval. -/
theorem C1_backoff (p cfg rand : ℚ) (errs : List Bool) :
    (errs.any id = true → cycleSleepInterval p errs cfg rand = 2 + rand) ∧
    (errs.any id = false → cycleSleepInterval p errs cfg rand = cfg) := by
  constructor
  · intro h
    unfold cycleSleepInterval
    rw [runSteps_eq, h]
    simp [nextPollInterval]
  · intro h
    unfold cycleSleepInterval
    rw [runSteps_eq, h]
    simp [nextPollInterval]

/-- C1, witness. -/
theorem C1_backoff_witness :
    cycleSleepInterval 7 [false, true, false, false, false, false] 60 (1/2) = 2 + 1/2 ∧
    cycleSleepInterval 7 [false, false, false, false, false, false] 60 (1/2) = 60 :=
  ⟨(C1_backoff 7 60 (1/2) [false, true, false, false, false, false]).1 (by decide),
   (C1_backoff 7 60 (1/2) [false, false, false, false, false, false]).2 (by decide)⟩

/-- C6.  A queue entry with no zonefile data is treated by
`replicate_name_data` as a pure-deletion update: it returns success at
once, with no blockchain lookup, no peer push, no token-file put, and the
dedupe accumulators unchanged. -/
theorem C6_pure_deletion (env : ReplicationEnv) (nd : QueueEntry)
    (zfSeen tfSeen : List String) (h : nd.zonefile = none) :
    replicate_name_data env nd zfSeen tfSeen =
      ⟨Except.ok (), [], zfSeen, tfSeen⟩ := by
  unfold replicate_name_data
  rw [h]

/-- C6, witness. -/
theorem C6_pure_deletion_witness :
    replicate_name_data c6Env c6Entry [] [] = ⟨Except.ok (), [], [], []⟩ :=
  C6_pure_deletion c6Env c6Entry [] [] rfl

/-- C7.  With the wallet unlocked and a preorder row already queued for
the name, the preorder issuer returns success false with the
`Already in queue.` error, performs no chain broadcast, and leaves the
queue unchanged (no second insertion). -/
theorem C7_duplicate_preorder (st : RegState) (q : List QueueEntry) (fqu : String)
    (zd tf ta : Option String) (ap : String → Except String String)
    (hp : st.payment_address.isNone = false) (ho : st.owner_address.isNone = false)
    (hq : in_queue "preorder" fqu q = true) :
    preorder_issuer st q fqu zd tf ta ap =
      (⟨false, some "Already in queue.", none, none, none⟩, q, 0) := by
  unfold preorder_issuer
  rw [hp, ho, hq]
  rfl

/-- C7, witness. -/
theorem C7_duplicate_preorder_witness :
    preorder_issuer sampleWallet c7Queue "bob.id" (some "zfB") none none
        (fun f => Except.ok (f ++ "tx")) =
      (⟨false, some "Already in queue.", none, none, none⟩, c7Queue, 0) :=
  C7_duplicate_preorder sampleWallet c7Queue "bob.id" (some "zfB") none none
    (fun f => Except.ok (f ++ "tx")) rfl rfl (by decide)

/-- C8.  With the wallet unlocked, no update row queued, and the on-chain
zonefile hash already current, the update issuer returns success with the
unchanged warning, performs no broadcast, and enqueues nothing. -/
theorem C8_unchanged_update (st : RegState) (q : List QueueEntry) (fqu : String)
    (zt tf zh ta : Option String) (hashO : String → String)
    (zfCur : String → String → Bool) (asyncU : String → String → Except String String)
    (hassert : (zt.isNone && zh.isNone) = false)
    (hp : st.payment_address.isNone = false) (ho : st.owner_address.isNone = false)
    (hq : in_queue "update" fqu q = false)
    (hcur : zfCur fqu (zh.getD (hashO (zt.getD ""))) = true) :
    update_issuer st q fqu zt tf zh ta hashO zfCur asyncU =
      Except.ok
        (⟨true, none, some "The zonefile has not changed, so no update sent.", none, none⟩,
          q, 0) := by
  simp [update_issuer, hassert, hp, ho, hq, hcur]

/-- C8, witness. -/
theorem C8_unchanged_update_witness :
    update_issuer sampleWallet [] "carol.id" (some "zfC") none none none
        (fun _ => "hC") (fun _ _ => true) (fun _ _ => Except.error "no broadcast") =
      Except.ok
        (⟨true, none, some "The zonefile has not changed, so no update sent.", none, none⟩,
          [], 0) :=
  C8_unchanged_update sampleWallet [] "carol.id" (some "zfC") none none none
    (fun _ => "hC") (fun _ _ => true) (fun _ _ => Except.error "no broadcast")
    rfl rfl rfl rfl rfl

/-- C4.  A lockfile is judged stale exactly when the PID parsed from its
contents differs from the current PID, an unparseable lockfile counting
as stale; at startup a stale lockfile is unlinked and the worker proceeds
to the temp-file-plus-hard-link acquisition, while a lockfile holding the
current PID makes the extra worker exit without acquiring. -/
theorem C4_lockfile (contents : String) (curPid : Int) (linkOk writeOk : Bool)
    (hpid : 0 < curPid) :
    (is_lockfile_stale contents curPid = true ↔
      parseDecInt contents = none ∨
        ∃ p, parseDecInt contents = some p ∧ p ≠ curPid) ∧
    (is_lockfile_stale contents curPid = true →
      lockfileStartup (some contents) curPid linkOk writeOk =
        ((if linkOk then
            if writeOk then StartOutcome.acquired else StartOutcome.exitWriteFailed
          else StartOutcome.exitLinkFailed), true)) ∧
    (parseDecInt contents = some curPid →
      lockfileStartup (some contents) curPid linkOk writeOk =
        (StartOutcome.exitValidLock, false)) := by
  refine ⟨?_, ?_, ?_⟩
  · constructor
    · intro hst
      cases hparse : parseDecInt contents with
      | none => exact Or.inl rfl
      | some p =>
        refine Or.inr ⟨p, rfl, ?_⟩
        intro hpe
        simp [is_lockfile_stale, hparse, hpe] at hst
    · intro hd
      rcases hd with hnone | ⟨p, hp, hne⟩
      · simp only [is_lockfile_stale, hnone, Option.getD_none, bne_iff_ne, ne_eq]
        omega
      · simp [is_lockfile_stale, hp, bne_iff_ne, hne]
  · intro hstale
    cases linkOk <;> cases writeOk <;>
      simp [lockfileStartup, is_lockfile_valid, hstale]
  · intro hparse
    have hstale : is_lockfile_stale contents curPid = false := by
      simp [is_lockfile_stale, hparse]
    simp [lockfileStartup, is_lockfile_valid, hstale]

/-- C4, witness. -/
theorem C4_lockfile_witness :
    lockfileStartup (some "999\n") 123 true true = (StartOutcome.acquired, true) ∧
    lockfileStartup (some " 123 ") 123 true true = (StartOutcome.exitValidLock, false) ∧
    is_lockfile_stale "garbage" 123 = true :=
  ⟨by
    have h := (C4_lockfile "999\n" 123 true true (by decide)).2.1 (by decide)
    simpa using h,
   (C4_lockfile " 123 " 123 true true (by decide)).2.2 (by decide),
   by
    have h := (C4_lockfile "garbage" 123 true true (by decide)).1
    exact h.mpr (Or.inl (by decide))⟩

/-- C3, counterexample.  When the zonefile hash is already in the
in-memory dedupe accumulator (a retry after an earlier replication), the
blockchain record is not consulted: with the chain showing value hash h2
against the entry hash h1, `replicate_name_data` still performs a
token-file put and returns success instead of the not-yet-replicated
error. -/
theorem C3_replication_gate_counterexample :
    (replicate_name_data c3Env c3Entry ["h1"] []).effects =
      [Effect.tokenPut "bob.id" "tfhash"] ∧
    (c3Env.getNameRecord "bob.id").value_hash ≠ "h1" ∧
    (replicate_name_data c3Env c3Entry ["h1"] []).res = Except.ok () := by
  refine ⟨rfl, by decide, rfl⟩

/-- C3, amended.  On the first processing of a zonefile hash (hash not in
the dedupe accumulator), no replication attempt occurs while the chain
record value hash differs from the entry hash: `replicate_name_data`
performs only the blockchain lookup, returns the
`Zonefile hash not yet replicated` error, and leaves the accumulators
unchanged.  Once the hash is in the accumulator the check is skipped. -/
theorem C3_replication_gate (env : ReplicationEnv) (nd : QueueEntry)
    (zfSeen tfSeen : List String) (z h : String)
    (hz : nd.zonefile = some z)
    (hh : nd.zonefile_hash.getD (env.getZonefileDataHash z) = h)
    (hseen : zfSeen.contains h = false)
    (herr : (env.getNameRecord nd.fqu).error = none)
    (hne : (env.getNameRecord nd.fqu).value_hash ≠ h) :
    replicate_name_data env nd zfSeen tfSeen =
      ⟨Except.error "Zonefile hash not yet replicated",
        [Effect.chainLookup nd.fqu], zfSeen, tfSeen⟩ := by
  unfold replicate_name_data
  rw [hz]
  simp only [hh, hseen, Bool.not_false, if_true]
  rw [herr]
  simp [bne_iff_ne, hne]

/-- C3, witness for the amended statement. -/
theorem C3_replication_gate_witness :
    replicate_name_data c3wEnv c3Entry [] [] =
      ⟨Except.error "Zonefile hash not yet replicated",
        [Effect.chainLookup "bob.id"], [], []⟩ :=
  C3_replication_gate c3wEnv c3Entry [] [] "zonefiledata" "h1"
    rfl rfl rfl rfl (by decide)

/-- C9.  For wallet keys accepted by `set_wallet` (non-empty components,
payment and owner key info singlesig or multisig, data key singlesig
hex), a subsequent `get_wallet` returns the payment and owner addresses
that were passed in with no error, and the data pubkey is the one derived
from the data private key, decompressed when the derivation is compressed
hex; under the stated assumptions on the crypto primitives (the derived
key is compressed or uncompressed hex, and decompression yields
uncompressed hex) the stored pubkey is always uncompressed hex. -/
theorem C9_wallet_roundtrip (o : CryptoOracle) (st : RegState)
    (payment owner dat : String × String)
    (h1 : payment.1 ≠ "") (h2 : payment.2 ≠ "") (h3 : owner.1 ≠ "")
    (h4 : owner.2 ≠ "") (h5 : dat.1 ≠ "") (h6 : dat.2 ≠ "")
    (hpk : (o.isSinglesig payment.2 || o.isMultisig payment.2) = true)
    (hok : (o.isSinglesig owner.2 || o.isMultisig owner.2) = true)
    (hdk : o.isSinglesigHex dat.2 = true)
    (hfmt : o.pubkeyFormat (o.derivePub dat.2) = "hex_compressed" ∨
      o.pubkeyFormat (o.derivePub dat.2) = "hex")
    (hdec : o.pubkeyFormat (o.decompress (o.derivePub dat.2)) = "hex") :
    (set_wallet o st payment owner dat).2.success = true ∧
    (get_wallet (set_wallet o st payment owner dat).1).payment_address =
      some payment.1 ∧
    (get_wallet (set_wallet o st payment owner dat).1).owner_address =
      some owner.1 ∧
    (get_wallet (set_wallet o st payment owner dat).1).error = none ∧
    (get_wallet (set_wallet o st payment owner dat).1).data_pubkey =
      some (if o.pubkeyFormat (o.derivePub dat.2) = "hex_compressed"
        then o.decompress (o.derivePub dat.2) else o.derivePub dat.2) ∧
    ∀ pk, (get_wallet (set_wallet o st payment owner dat).1).data_pubkey = some pk →
      o.pubkeyFormat pk = "hex" := by
  have hset : set_wallet o st payment owner dat =
      ({ payment_address := some payment.1
         owner_address := some owner.1
         data_pubkey := some (if o.pubkeyFormat (o.derivePub dat.2) = "hex_compressed"
           then o.decompress (o.derivePub dat.2) else o.derivePub dat.2)
         payment_privkey_info := some payment.2
         owner_privkey_info := some owner.2
         data_privkey_info := some dat.2 }, ⟨true, none⟩) := by
    rcases Bool.or_eq_true_iff.mp hpk with hpk1 | hpk2 <;>
      rcases Bool.or_eq_true_iff.mp hok with hok1 | hok2 <;>
      simp [set_wallet, h1, h2, h3, h4, h5, h6, hdk, *]
  rw [hset]
  refine ⟨rfl, rfl, rfl, rfl, rfl, ?_⟩
  intro pk hpkk
  simp only [get_wallet, Option.some_inj] at hpkk
  subst hpkk
  by_cases hc : o.pubkeyFormat (o.derivePub dat.2) = "hex_compressed"
  · rw [if_pos hc]
    exact hdec
  · rw [if_neg hc]
    rcases hfmt with hl | hr
    · exact absurd hl hc
    · exact hr

/-- C9, witness. -/
theorem C9_wallet_roundtrip_witness :
    (set_wallet c9Oracle RegState.initial ("1Pay", "pkey") ("1Own", "okey")
      ("02aabb", "dkey")).2.success = true ∧
    (get_wallet (set_wallet c9Oracle RegState.initial ("1Pay", "pkey")
      ("1Own", "okey") ("02aabb", "dkey")).1).payment_address = some "1Pay" ∧
    (get_wallet (set_wallet c9Oracle RegState.initial ("1Pay", "pkey")
      ("1Own", "okey") ("02aabb", "dkey")).1).data_pubkey = some "04aabbcc" := by
  have h := C9_wallet_roundtrip c9Oracle RegState.initial ("1Pay", "pkey")
    ("1Own", "okey") ("02aabb", "dkey")
    (by decide) (by decide) (by decide) (by decide) (by decide) (by decide)
    (by decide) (by decide) (by decide) (Or.inl (by decide)) (by decide)
  refine ⟨h.1, h.2.1, ?_⟩
  have h5 := h.2.2.2.2.1
  simpa using h5

/-- When no register row is queued for the name,
`register_preordered_name` cannot reach the `queuedb_find` branch. -/
theorem register_preordered_name_ne_nameError (isReg : Bool)
    (aR : String → Except String String) (q : List QueueEntry) (nd : QueueEntry)
    (h : in_queue "register" nd.fqu q = false) :
    (register_preordered_name isReg aR q nd).1 ≠ RpOutcome.nameError := by
  unfold register_preordered_name
  cases isReg with
  | true => simp
  | false =>
    simp only [Bool.not_false, if_true]
    cases hq : in_queue "preorder" nd.fqu q with
    | false => simp
    | true =>
      simp only [h, Bool.not_false, if_true]
      cases aR nd.fqu <;> simp

/-- One `register_preorders` iteration cannot raise the `NameError`. -/
theorem registerPreorderStep_preserves (isR : String → Bool)
    (aR : String → Except String String) (acc : PipeAcc) (nd : QueueEntry)
    (h : acc.raisedNameError = false) :
    (registerPreorderStep isR aR acc nd).raisedNameError = false := by
  unfold registerPreorderStep
  rw [h]
  simp only [Bool.false_eq_true, if_false]
  by_cases hg : in_queue "register" nd.fqu acc.queue = true
  · simp [hg, h]
  · have hqf : in_queue "register" nd.fqu acc.queue = false := by
      simpa using hg
    have hne := register_preordered_name_ne_nameError (isR nd.fqu) aR acc.queue nd hqf
    rw [if_neg hg]
    rcases hout : register_preordered_name (isR nd.fqu) aR acc.queue nd with ⟨out, q2⟩
    rw [hout] at hne
    cases out <;> simp_all

/-- When no update row is queued for the name, `set_zonefile` cannot
reach the `queuedb_find` branch. -/
theorem set_zonefile_ne_nameError (st : RegState) (hashO : String → String)
    (zfCur : String → String → Bool) (aU : String → String → Except String String)
    (q : List QueueEntry) (nd : QueueEntry)
    (h : in_queue "update" nd.fqu q = false) :
    (set_zonefile st hashO zfCur aU q nd).1 ≠ SzOutcome.nameError := by
  unfold set_zonefile
  rw [h]
  simp only [Bool.false_eq_true, if_false]
  cases update_issuer st q nd.fqu nd.zonefile nd.token_file nd.zonefile_hash
      nd.transfer_address hashO zfCur aU with
  | error e => simp
  | ok r =>
    rcases r with ⟨r1, q2, n⟩
    by_cases hs : r1.success = true
    · simp only [hs, Bool.not_true, Bool.false_eq_true, if_false]
      split <;> simp
    · have hs2 : r1.success = false := by simpa using hs
      simp [hs2]

/-- One `set_zonefiles` iteration cannot raise the `NameError`. -/
theorem setZonefileStep_preserves (st : RegState) (hashO : String → String)
    (zfCur : String → String → Bool) (aU : String → String → Except String String)
    (acc : PipeAcc × Bool) (nd : QueueEntry)
    (h : acc.1.raisedNameError = false) :
    (setZonefileStep st hashO zfCur aU acc nd).1.raisedNameError = false := by
  unfold setZonefileStep
  rw [h]
  simp only [Bool.false_or]
  by_cases hab : acc.2 = true
  · simp [hab, h]
  · rw [if_neg hab]
    by_cases hg : in_queue "update" nd.fqu acc.1.queue = true
    · simp [hg, h]
    · have hqf : in_queue "update" nd.fqu acc.1.queue = false := by
        simpa using hg
      have hne := set_zonefile_ne_nameError st hashO zfCur aU acc.1.queue nd hqf
      rw [if_neg hg]
      rcases hout : set_zonefile st hashO zfCur aU acc.1.queue nd with ⟨out, q2⟩
      rw [hout] at hne
      cases out <;> simp_all

/-- C10.  The `already queued` branches of `register_preordered_name` and
`set_zonefile`, which evaluate the undefined `queuedb_find` and would
raise a `NameError`, are unreachable from the worker loop:
`register_preorders` drops any preorder whose name already has a register
row before dispatching `register_preordered_name`, and `set_zonefiles`
drops any register whose name already has an update row before
dispatching `set_zonefile`. -/
theorem C10_queuedb_find_unreachable (st : RegState) (isR : String → Bool)
    (aR : String → Except String String) (hashO : String → String)
    (zfCur : String → String → Bool) (aU : String → String → Except String String)
    (preorders registers q1 q2 : List QueueEntry) :
    (register_preorders isR aR preorders q1).raisedNameError = false ∧
    (set_zonefiles st hashO zfCur aU registers q2).1.raisedNameError = false := by
  constructor
  · unfold register_preorders
    have h : ∀ acc : PipeAcc, acc.raisedNameError = false →
        (preorders.foldl (registerPreorderStep isR aR) acc).raisedNameError = false := by
      induction preorders with
      | nil => intro acc h; simpa using h
      | cons nd rest ih =>
        intro acc h
        simp only [List.foldl_cons]
        exact ih _ (registerPreorderStep_preserves isR aR acc nd h)
    exact h ⟨q1, false, false⟩ rfl
  · unfold set_zonefiles
    have h : ∀ acc : PipeAcc × Bool, acc.1.raisedNameError = false →
        (registers.foldl (setZonefileStep st hashO zfCur aU) acc).1.raisedNameError
          = false := by
      induction registers with
      | nil => intro acc h; simpa using h
      | cons nd rest ih =>
        intro acc h
        simp only [List.foldl_cons]
        exact ih _ (setZonefileStep_preserves st hashO zfCur aU acc nd h)
    exact h (⟨q2, false, false⟩, false) rfl

/-- A queue contains a key exactly when its key-filtered rows are
non-empty. -/
theorem in_queue_iff_entriesFor (cat fqu : String) (q : List QueueEntry) :
    in_queue cat fqu q = true ↔ entriesFor q cat fqu ≠ [] := by
  unfold in_queue entriesFor
  rw [List.any_eq_true]
  constructor
  · rintro ⟨e, he, hp⟩ hnil
    rw [List.filter_eq_nil_iff] at hnil
    exact hnil e he hp
  · intro h
    by_contra hno
    push_neg at hno
    apply h
    rw [List.filter_eq_nil_iff]
    intro e he hp
    exact hno e he hp

/-- A queue misses a key exactly when its key-filtered rows are empty. -/
theorem in_queue_false_iff (cat fqu : String) (q : List QueueEntry) :
    in_queue cat fqu q = false ↔ entriesFor q cat fqu = [] := by
  cases hb : in_queue cat fqu q with
  | true =>
    simp only [Bool.true_eq_false, false_iff]
    exact (in_queue_iff_entriesFor cat fqu q).mp hb
  | false =>
    simp only [true_iff]
    by_contra hne
    have := (in_queue_iff_entriesFor cat fqu q).mpr hne
    rw [hb] at this
    exact Bool.false_ne_true this

/-- A filter that keeps every row with the key leaves the key-filtered
rows unchanged. -/
theorem entriesFor_filter_keep (p : QueueEntry → Bool) (q : List QueueEntry)
    (cat fqu : String)
    (h : ∀ e, (e.category == cat && e.fqu == fqu) = true → p e = true) :
    entriesFor (q.filter p) cat fqu = entriesFor q cat fqu := by
  induction q with
  | nil => rfl
  | cons e es ih =>
    unfold entriesFor at *
    by_cases hk : (e.category == cat && e.fqu == fqu) = true
    · have hp := h e hk
      simp [List.filter_cons, hk, hp, ih]
    · by_cases hp : p e = true
      · simp [List.filter_cons, hk, hp, ih]
      · simp [List.filter_cons, hk, hp, ih]

/-- Removing a row whose name differs does not affect the key-filtered
rows of another name. -/
theorem entriesFor_removeall_other (v : QueueEntry) (q : List QueueEntry)
    (cat fqu : String) (h : v.fqu ≠ fqu) :
    entriesFor (queue_removeall [v] q) cat fqu = entriesFor q cat fqu := by
  unfold queue_removeall
  apply entriesFor_filter_keep
  intro e hk
  have hf : e.fqu = fqu := by
    have := (Bool.and_eq_true _ _).mp hk
    exact beq_iff_eq.mp this.2
  have : (v.fqu == e.fqu) = false := by
    rw [hf]
    exact beq_eq_false_iff_ne.mpr h
  simp [this]

/-- Removing a row empties the key-filtered rows of its own key. -/
theorem entriesFor_removeall_self (v : QueueEntry) (q : List QueueEntry) :
    entriesFor (queue_removeall [v] q) v.category v.fqu = [] := by
  unfold entriesFor queue_removeall
  rw [List.filter_eq_nil_iff]
  intro e he
  have hsurv := (List.mem_filter.mp he).2
  simp only [List.any_cons, List.any_nil, Bool.or_false, Bool.not_eq_true] at hsurv
  intro hk
  have hks := (Bool.and_eq_true _ _).mp hk
  have h1 : e.category = v.category := beq_iff_eq.mp hks.1
  have h2 : e.fqu = v.fqu := beq_iff_eq.mp hks.2
  rw [h1, h2] at hsurv
  simp at hsurv

/-- Annotating a row of a different name does not affect the key-filtered
rows of another name. -/
theorem entriesFor_cons_of_ne (e : QueueEntry) (q : List QueueEntry)
    (cat fqu : String) (h : (e.category == cat && e.fqu == fqu) = false) :
    entriesFor (e :: q) cat fqu = entriesFor q cat fqu := by
  unfold entriesFor
  rw [List.filter_cons, h]
  simp

theorem entriesFor_cons_of_eq (e : QueueEntry) (q : List QueueEntry)
    (cat fqu : String) (h : (e.category == cat && e.fqu == fqu) = true) :
    entriesFor (e :: q) cat fqu = e :: entriesFor q cat fqu := by
  unfold entriesFor
  rw [List.filter_cons, h]
  simp

theorem entriesFor_addmsg_other (cat2 fqu2 : String) (msg : Option String)
    (q : List QueueEntry) (cat fqu : String) (h : fqu2 ≠ fqu) :
    entriesFor (queue_add_error_msg cat2 fqu2 msg q) cat fqu =
      entriesFor q cat fqu := by
  induction q with
  | nil => rfl
  | cons e es ih =>
    show entriesFor
        ((if (e.category == cat2 && e.fqu == fqu2) = true
          then { e with last_error := msg } else e) ::
          queue_add_error_msg cat2 fqu2 msg es) cat fqu = entriesFor (e :: es) cat fqu
    by_cases hm : (e.category == cat2 && e.fqu == fqu2) = true
    · have hf : e.fqu = fqu2 := beq_iff_eq.mp ((Bool.and_eq_true _ _).mp hm).2
      have hkf : (e.fqu == fqu) = false := by
        rw [hf]
        exact beq_eq_false_iff_ne.mpr h
      have hk0 : (e.category == cat && e.fqu == fqu) = false := by
        rw [hkf, Bool.and_false]
      rw [if_pos hm,
        entriesFor_cons_of_ne { e with last_error := msg }
          (queue_add_error_msg cat2 fqu2 msg es) cat fqu hk0,
        entriesFor_cons_of_ne e es cat fqu hk0]
      exact ih
    · rw [if_neg hm]
      by_cases hk : (e.category == cat && e.fqu == fqu) = true
      · rw [entriesFor_cons_of_eq e (queue_add_error_msg cat2 fqu2 msg es) cat fqu hk,
          entriesFor_cons_of_eq e es cat fqu hk]
        exact congrArg (List.cons e) ih
      · have hk2 : (e.category == cat && e.fqu == fqu) = false := by
          simpa using hk
        rw [entriesFor_cons_of_ne e (queue_add_error_msg cat2 fqu2 msg es) cat fqu hk2,
          entriesFor_cons_of_ne e es cat fqu hk2]
        exact ih

/-- Annotating a key maps the annotation over its key-filtered rows. -/
theorem entriesFor_addmsg_self (fqu : String) (msg : Option String)
    (q : List QueueEntry) :
    entriesFor (queue_add_error_msg "update" fqu msg q) "update" fqu =
      (entriesFor q "update" fqu).map (fun e => { e with last_error := msg }) := by
  induction q with
  | nil => rfl
  | cons e es ih =>
    show entriesFor
        ((if (e.category == "update" && e.fqu == fqu) = true
          then { e with last_error := msg } else e) ::
          queue_add_error_msg "update" fqu msg es) "update" fqu =
      (entriesFor (e :: es) "update" fqu).map (fun e => { e with last_error := msg })
    by_cases hm : (e.category == "update" && e.fqu == fqu) = true
    · rw [if_pos hm,
        entriesFor_cons_of_eq { e with last_error := msg }
          (queue_add_error_msg "update" fqu msg es) "update" fqu hm,
        entriesFor_cons_of_eq e es "update" fqu hm, List.map_cons]
      exact congrArg (List.cons { e with last_error := msg }) ih
    · have hm2 : (e.category == "update" && e.fqu == fqu) = false := by
        simpa using hm
      rw [if_neg hm,
        entriesFor_cons_of_ne e (queue_add_error_msg "update" fqu msg es) "update" fqu hm2,
        entriesFor_cons_of_ne e es "update" fqu hm2]
      exact ih

/-- A transfer-step iteration over a row of a different name does not
affect the key-filtered rows of another name. -/
theorem transferStep_entriesFor_other (chain : String → NameRecord)
    (transferFn : String → String → TransferRes) (skip : List String)
    (acc : TransferAcc) (v : QueueEntry) (cat fqu : String) (h : v.fqu ≠ fqu) :
    entriesFor (transferStep chain transferFn skip acc v).queue cat fqu =
      entriesFor acc.queue cat fqu := by
  unfold transferStep
  by_cases hs : skip.contains v.fqu = true
  · rw [if_pos hs]
  · rw [if_neg hs]
    cases hta : v.transfer_address with
    | none => exact entriesFor_removeall_other v acc.queue cat fqu h
    | some addr =>
      dsimp only
      split
      · exact entriesFor_removeall_other v acc.queue cat fqu h
      · split
        · exact entriesFor_removeall_other v acc.queue cat fqu h
        · exact entriesFor_addmsg_other "update" v.fqu _ acc.queue cat fqu h

/-- Folding transfer-step iterations over rows of different names does
not affect the key-filtered rows of another name. -/
theorem transferFold_entriesFor_other (chain : String → NameRecord)
    (transferFn : String → String → TransferRes) (skip : List String)
    (l : List QueueEntry) (acc : TransferAcc) (cat fqu : String)
    (h : ∀ v ∈ l, v.fqu ≠ fqu) :
    entriesFor ((l.foldl (transferStep chain transferFn skip) acc)).queue cat fqu =
      entriesFor acc.queue cat fqu := by
  induction l generalizing acc with
  | nil => rfl
  | cons v vs ih =>
    simp only [List.foldl_cons]
    rw [ih _ (fun x hx => h x (List.mem_cons_of_mem _ hx))]
    exact transferStep_entriesFor_other chain transferFn skip acc v cat fqu
      (h v (List.mem_cons_self _ _))

/-- Transfer-step equation: a row with no transfer address is removed. -/
theorem transferStep_eq_none (chain : String → NameRecord)
    (transferFn : String → String → TransferRes) (skip : List String)
    (acc : TransferAcc) (u : QueueEntry)
    (hs : skip.contains u.fqu = false) (hta : u.transfer_address = none) :
    transferStep chain transferFn skip acc u =
      { acc with queue := queue_removeall [u] acc.queue } := by
  unfold transferStep
  rw [if_neg (by rw [hs]; exact Bool.false_ne_true)]
  split
  · next addr2 heq =>
    rw [hta] at heq
    cases heq
  · rfl

/-- Transfer-step equation: a row the chain already shows at its transfer
address is removed. -/
theorem transferStep_eq_chainhit (chain : String → NameRecord)
    (transferFn : String → String → TransferRes) (skip : List String)
    (acc : TransferAcc) (u : QueueEntry) (addr : String)
    (hs : skip.contains u.fqu = false) (hta : u.transfer_address = some addr)
    (hc : ((chain u.fqu).address == some addr) = true) :
    transferStep chain transferFn skip acc u =
      { acc with queue := queue_removeall [u] acc.queue } := by
  unfold transferStep
  rw [if_neg (by rw [hs]; exact Bool.false_ne_true)]
  split
  · next addr2 heq =>
    rw [hta] at heq
    injection heq with h2
    subst h2
    rw [if_pos hc]
  · next heq =>
    rw [hta] at heq

/-- Transfer-step equation: when the chain does not yet show the transfer,
a transfer is broadcast; success removes the row, failure annotates it
and records the name as failed. -/
theorem transferStep_eq_bcast (chain : String → NameRecord)
    (transferFn : String → String → TransferRes) (skip : List String)
    (acc : TransferAcc) (u : QueueEntry) (addr : String)
    (hs : skip.contains u.fqu = false) (hta : u.transfer_address = some addr)
    (hc : ((chain u.fqu).address == some addr) = false) :
    transferStep chain transferFn skip acc u =
      (if (transferFn u.fqu addr).success = true then
        { acc with queue := queue_removeall [u] acc.queue }
      else
        { queue := queue_add_error_msg "update" u.fqu (transferFn u.fqu addr).error
            acc.queue
          failedNames := acc.failedNames ++ [u.fqu]
          hadError := true }) := by
  unfold transferStep
  rw [if_neg (by rw [hs]; exact Bool.false_ne_true)]
  split
  · next addr2 heq =>
    rw [hta] at heq
    injection heq with h2
    subst h2
    rw [if_neg (by rw [hc]; exact Bool.false_ne_true)]
  · next heq =>
    rw [hta] at heq
    cases heq

/-- C2.  For a confirmed update row processed by `transfer_names` and not
in the skip list (names unique per the queue uniqueness invariant): the
row is removed from the queue exactly when its transfer address is nil,
or the chain record already shows the name at the transfer address, or
the transfer broadcast succeeds; on broadcast failure the row stays in
the queue, annotated with the error message of the failed transfer. -/
theorem C2_transfer_removal (chain : String → NameRecord)
    (transferFn : String → String → TransferRes) (skip : List String)
    (updates : List QueueEntry) (q : List QueueEntry) (u : QueueEntry)
    (hu : u ∈ updates) (hcat : u.category = "update")
    (hnd : (updates.map QueueEntry.fqu).Nodup)
    (hskip : skip.contains u.fqu = false)
    (hin : in_queue "update" u.fqu q = true) :
    (in_queue "update" u.fqu (transfer_names chain transferFn skip updates q).queue
        = false ↔
      (u.transfer_address = none ∨
        (∃ a, u.transfer_address = some a ∧ (chain u.fqu).address = some a) ∨
        (∃ a, u.transfer_address = some a ∧ (transferFn u.fqu a).success = true))) ∧
    (∀ a, u.transfer_address = some a →
      (chain u.fqu).address ≠ some a →
      (transferFn u.fqu a).success = false →
      in_queue "update" u.fqu (transfer_names chain transferFn skip updates q).queue
          = true ∧
      ∀ e ∈ entriesFor (transfer_names chain transferFn skip updates q).queue
          "update" u.fqu,
        e.last_error = (transferFn u.fqu a).error) := by
  obtain ⟨l1, l2, rfl⟩ := List.append_of_mem hu
  have hmap : ((l1 ++ u :: l2).map QueueEntry.fqu) =
      l1.map QueueEntry.fqu ++ u.fqu :: l2.map QueueEntry.fqu := by
    simp
  rw [hmap] at hnd
  have hnd3 := List.nodup_append.mp hnd
  have h1 : ∀ v ∈ l1, v.fqu ≠ u.fqu := by
    intro v hv heq
    exact hnd3.2.2 (List.mem_map_of_mem _ hv)
      (heq ▸ List.mem_cons_self u.fqu (l2.map QueueEntry.fqu))
  have h2 : ∀ v ∈ l2, v.fqu ≠ u.fqu := by
    intro v hv heq
    exact (List.nodup_cons.mp hnd3.2.1).1 (heq ▸ List.mem_map_of_mem _ hv)
  have hfold : transfer_names chain transferFn skip (l1 ++ u :: l2) q =
      l2.foldl (transferStep chain transferFn skip)
        (transferStep chain transferFn skip
          (l1.foldl (transferStep chain transferFn skip) ⟨q, [], false⟩) u) := by
    unfold transfer_names
    rw [List.foldl_append, List.foldl_cons]
  have hE1 : entriesFor
      (l1.foldl (transferStep chain transferFn skip) ⟨q, [], false⟩).queue
      "update" u.fqu = entriesFor q "update" u.fqu :=
    transferFold_entriesFor_other chain transferFn skip l1 ⟨q, [], false⟩
      "update" u.fqu h1
  have hEfin : entriesFor
      (transfer_names chain transferFn skip (l1 ++ u :: l2) q).queue "update" u.fqu =
      entriesFor (transferStep chain transferFn skip
        (l1.foldl (transferStep chain transferFn skip) ⟨q, [], false⟩) u).queue
        "update" u.fqu := by
    rw [hfold]
    exact transferFold_entriesFor_other chain transferFn skip l2 _ "update" u.fqu h2
  have hne0 : entriesFor q "update" u.fqu ≠ [] :=
    (in_queue_iff_entriesFor "update" u.fqu q).mp hin
  cases hta : u.transfer_address with
  | none =>
    have hEnil : entriesFor
        (transfer_names chain transferFn skip (l1 ++ u :: l2) q).queue "update" u.fqu
        = [] := by
      rw [hEfin, transferStep_eq_none chain transferFn skip _ u hskip hta]
      have := entriesFor_removeall_self u
        (l1.foldl (transferStep chain transferFn skip) ⟨q, [], false⟩).queue
      rw [hcat] at this
      exact this
    have hiq : in_queue "update" u.fqu
        (transfer_names chain transferFn skip (l1 ++ u :: l2) q).queue = false :=
      (in_queue_false_iff _ _ _).mpr hEnil
    refine ⟨iff_of_true hiq (Or.inl rfl), ?_⟩
    intro a ha
    exact Option.noConfusion ha
  | some addr =>
    by_cases hc : ((chain u.fqu).address == some addr) = true
    · have hEnil : entriesFor
          (transfer_names chain transferFn skip (l1 ++ u :: l2) q).queue "update" u.fqu
          = [] := by
        rw [hEfin, transferStep_eq_chainhit chain transferFn skip _ u addr hskip hta hc]
        have := entriesFor_removeall_self u
          (l1.foldl (transferStep chain transferFn skip) ⟨q, [], false⟩).queue
        rw [hcat] at this
        exact this
      have hiq : in_queue "update" u.fqu
          (transfer_names chain transferFn skip (l1 ++ u :: l2) q).queue = false :=
        (in_queue_false_iff _ _ _).mpr hEnil
      refine ⟨iff_of_true hiq (Or.inr (Or.inl ⟨addr, rfl, beq_iff_eq.mp hc⟩)), ?_⟩
      intro a ha hcne
      injection ha with h2
      subst h2
      exact absurd (beq_iff_eq.mp hc) hcne
    · have hcF : ((chain u.fqu).address == some addr) = false := by
        simpa using hc
      by_cases hr : (transferFn u.fqu addr).success = true
      · have hEnil : entriesFor
            (transfer_names chain transferFn skip (l1 ++ u :: l2) q).queue "update" u.fqu
            = [] := by
          rw [hEfin, transferStep_eq_bcast chain transferFn skip _ u addr hskip hta hcF,
            if_pos hr]
          have := entriesFor_removeall_self u
            (l1.foldl (transferStep chain transferFn skip) ⟨q, [], false⟩).queue
          rw [hcat] at this
          exact this
        have hiq : in_queue "update" u.fqu
            (transfer_names chain transferFn skip (l1 ++ u :: l2) q).queue = false :=
          (in_queue_false_iff _ _ _).mpr hEnil
        refine ⟨iff_of_true hiq (Or.inr (Or.inr ⟨addr, rfl, hr⟩)), ?_⟩
        intro a ha hcne hrf
        injection ha with h2
        subst h2
        rw [hr] at hrf
        cases hrf
      · have hEmap : entriesFor
            (transfer_names chain transferFn skip (l1 ++ u :: l2) q).queue "update" u.fqu
            = (entriesFor q "update" u.fqu).map
              (fun e => { e with last_error := (transferFn u.fqu addr).error }) := by
          rw [hEfin, transferStep_eq_bcast chain transferFn skip _ u addr hskip hta hcF,
            if_neg hr]
          rw [entriesFor_addmsg_self u.fqu (transferFn u.fqu addr).error
            (l1.foldl (transferStep chain transferFn skip) ⟨q, [], false⟩).queue, hE1]
        have hmapne : (entriesFor q "update" u.fqu).map
            (fun e => { e with last_error := (transferFn u.fqu addr).error }) ≠ [] := by
          intro hmn
          exact hne0 (List.map_eq_nil_iff.mp hmn)
        have hiq : in_queue "update" u.fqu
            (transfer_names chain transferFn skip (l1 ++ u :: l2) q).queue = true := by
          rw [in_queue_iff_entriesFor, hEmap]
          exact hmapne
        constructor
        · rw [hiq]
          simp only [Bool.true_eq_false, false_iff]
          rintro (hn | ⟨a, ha, hca⟩ | ⟨a, ha, hra⟩)
          · exact Option.noConfusion hn
          · injection ha with h2
            subst h2
            exact hc (beq_iff_eq.mpr hca)
          · injection ha with h2
            subst h2
            exact hr hra
        · intro a ha hcne hrf
          injection ha with h2
          subst h2
          refine ⟨hiq, ?_⟩
          intro e he
          rw [hEmap] at he
          obtain ⟨e0, _, rfl⟩ := List.mem_map.mp he
          rfl

/-- C2, witness: a failed transfer broadcast leaves the update row in the
queue. -/
theorem C2_transfer_removal_witness :
    in_queue "update" "alice.id"
      (transfer_names c2chain c2transferFn [] [c2row] [c2row]).queue = true :=
  ((C2_transfer_removal c2chain c2transferFn [] [c2row] [c2row] c2row
      (List.mem_singleton.mpr rfl) rfl (by simp) rfl rfl).2
    "1Dest" rfl (by decide) rfl).1

/-- A ready wallet exits the gate at once without reading the flag. -/
theorem gateLoop_ready (env : WEnv) (t w : Nat) (g : Nat) :
    gateLoop env t w true g = ([], t, w, true) := by
  cases g <;> rfl

/-- C5, counterexample.  With the flag cleared from instant 3 — right
after the preemption-point read at instant 2 of the first cycle — the
pipeline steps at instants 3 through 8 still begin: the worker does not
observe the flag between the steps of a cycle. -/
theorem C5_flag_counterexample :
    c5Env.flag 2 = true ∧ c5Env.flag 3 = false ∧ c5Env.flag 4 = false ∧
    (workerRun c5Env 0 0 0 1 5 2).get? 4 = some (WEv.stepRun 0 1) ∧
    (workerRun c5Env 0 0 0 1 5 2).get? 8 = some (WEv.stepRun 0 5) := by
  refine ⟨rfl, rfl, rfl, ?_, ?_⟩ <;> rfl

/-- C5, amended.  After the flag is cleared the worker observes it at the
top of each cycle (so no new cycle begins), in each wallet-gate iteration
while the wallet is not ready, and after every second of the inter-cycle
sleep; but the six pipeline steps of a cycle, once begun, all run
regardless of the flag, with no observation between the steps. -/
theorem C5_flag_observation (env : WEnv) (t w c : Nat) (p : ℚ) (g n : Nat) :
    (env.flag t = false → workerRun env t w c p g (n + 1) = [WEv.flagRead false]) ∧
    (∀ t2 s, env.flag (t2 + 1) = false →
      sleepLoop env t2 (s + 1) = ([WEv.sleepSec, WEv.flagRead false], t2 + 2)) ∧
    (∀ t2 w2 g2, env.flag t2 = false →
      gateLoop env t2 w2 false (g2 + 1) = ([WEv.flagRead false], t2 + 1, w2, true)) ∧
    (env.flag t = true → env.ready w = true → env.flag (t + 2) = true →
      ∀ i : Fin 6, WEv.stepRun c i ∈ workerRun env t w c p g (n + 1)) := by
  refine ⟨?_, ?_, ?_, ?_⟩
  · intro h
    simp [workerRun, h]
  · intro t2 s h
    simp [sleepLoop, h]
  · intro t2 w2 g2 h
    simp [gateLoop, h]
  · intro h1 h2 h3 i
    have hmem : WEv.stepRun c i ∈ stepEvents c := by
      simp [stepEvents]
    have hg : gateLoop env (t + 2) (w + 1) true g = ([], t + 2, w + 1, true) :=
      gateLoop_ready env (t + 2) (w + 1) g
    simp only [workerRun, h1, h2, hg, h3, Bool.not_true, Bool.false_eq_true, if_false,
      Bool.not_false, if_true]
    simp [List.mem_append, hmem]

/-- C5, witness for the amended statement. -/
theorem C5_flag_observation_witness :
    workerRun c5ClearEnv 0 0 0 1 5 3 = [WEv.flagRead false] ∧
    sleepLoop c5ClearEnv 4 2 = ([WEv.sleepSec, WEv.flagRead false], 6) ∧
    gateLoop c5ClearEnv 7 1 false 3 = ([WEv.flagRead false], 8, 1, true) ∧
    WEv.stepRun 0 3 ∈ workerRun c5SetEnv 0 0 0 1 5 1 :=
  ⟨(C5_flag_observation c5ClearEnv 0 0 0 1 5 2).1 rfl,
   (C5_flag_observation c5ClearEnv 0 0 0 1 5 2).2.1 4 1 rfl,
   (C5_flag_observation c5ClearEnv 0 0 0 1 5 2).2.2.1 7 1 2 rfl,
   (C5_flag_observation c5SetEnv 0 0 0 1 5 0).2.2.2 rfl rfl rfl 3⟩

end Registrar
